import Mathlib

/-!
Shallow embedding of the gorocksdb binding layer: the DB handle with its
open flag and reader/writer guard, the copy-on-write callback registry
(COWList), the compaction-filter dispatch shim, and the column-family
open entry points.  The native storage engine is an external
collaborator, so its replies are supplied as explicit oracle arguments;
every call into it, together with the lock traffic on the DB mutex and
the scratch-buffer releases of the MultiGet path, is recorded as an
event trace so that theorems can speak about which native entry points
an operation touched.
-/

namespace Gorocksdb

/-- Byte sequences crossing the C boundary (Go byte slices). -/
abbrev Bytes := List Nat

/-- Errors returned by DB operations: the typed closed error
(errDBClosed in the source) or an engine-reported message string. -/
inductive DBError
  | dbClosed
  | engineError (msg : String)
  deriving DecidableEq

/-- Calls into the native engine (the C side of the binding). -/
inductive NativeCall
  | get (key : Bytes)
  | getCF (cf : Nat) (key : Bytes)
  | merge (key value : Bytes)
  | put (key value : Bytes)
  | delete (key : Bytes)
  | write (batch : Nat)
  | flush
  | disableFileDeletions
  | enableFileDeletions (force : Bool)
  | multiGet (keys : List Bytes)
  | propertyValue (prop : String)
  | approximateSizes (n : Nat)
  | approximateMemtableSizes (n : Nat)
  | compactRange (start limit : Option Bytes)
  | shutdown
  | close
  deriving DecidableEq

/-- Observable events of one operation: lock traffic on the DB
reader/writer mutex, native engine calls, and the per-key scratch buffer
releases performed by the MultiGet path. -/
inductive Event
  | rLock
  | rUnlock
  | lock
  | unlock
  | native (call : NativeCall)
  | freeKeyBuf (i : Nat)
  | freeValBuf (i : Nat)
  | freeErrBuf (i : Nat)
  deriving DecidableEq

/-- The native engine calls contained in an event trace. -/
def nativeCalls (events : List Event) : List NativeCall :=
  events.filterMap fun e =>
    match e with
    | Event.native c => some c
    | _ => none

/-- Number of lock acquisitions (shared or exclusive) in a trace. -/
def lockAcquisitions (events : List Event) : Nat :=
  events.countP fun e =>
    match e with
    | Event.rLock => true
    | Event.lock => true
    | _ => false

/-- The DB handle state: the int32 open flag (1 after a successful open,
0 after Close) and how many times rocksdb_close has been invoked on the
native handle (0 while the handle is live; a count of 2 is a double
free).  The raw C pointer carries no further information here. -/
structure DB where
  opened : Nat
  closeCount : Nat
  deriving DecidableEq

/-- Reply of the native rocksdb_get entry point: an error string or a
possibly-null value buffer. -/
structure NativeGetReply where
  cErr : Option String
  value : Option Bytes
  deriving DecidableEq

/-- Get: shared lock, open-flag check, then the native get; the reply is
either an engine error or a possibly-missing value. -/
def DB.Get (db : DB) (native : NativeGetReply) (key : Bytes) :
    Except DBError (Option Bytes) × List Event :=
  if db.opened = 0 then
    (Except.error DBError.dbClosed, [Event.rLock, Event.rUnlock])
  else
    let events := [Event.rLock, Event.native (NativeCall.get key), Event.rUnlock]
    match native.cErr with
    | some msg => (Except.error (DBError.engineError msg), events)
    | none => (Except.ok native.value, events)

/-- GetBytes: same control flow as Get, returning a copied byte slice
(nil when the key is absent). -/
def DB.GetBytes (db : DB) (native : NativeGetReply) (key : Bytes) :
    Except DBError (Option Bytes) × List Event :=
  if db.opened = 0 then
    (Except.error DBError.dbClosed, [Event.rLock, Event.rUnlock])
  else
    let events := [Event.rLock, Event.native (NativeCall.get key), Event.rUnlock]
    match native.cErr with
    | some msg => (Except.error (DBError.engineError msg), events)
    | none => (Except.ok native.value, events)

/-- GetCF: Get against a column family handle. -/
def DB.GetCF (db : DB) (native : NativeGetReply) (cf : Nat) (key : Bytes) :
    Except DBError (Option Bytes) × List Event :=
  if db.opened = 0 then
    (Except.error DBError.dbClosed, [Event.rLock, Event.rUnlock])
  else
    let events := [Event.rLock, Event.native (NativeCall.getCF cf key), Event.rUnlock]
    match native.cErr with
    | some msg => (Except.error (DBError.engineError msg), events)
    | none => (Except.ok native.value, events)

/-- Merge: unlike Put and Delete, the source takes the shared lock and
checks the open flag before calling the native merge. -/
def DB.Merge (db : DB) (nativeErr : Option String) (key value : Bytes) :
    Except DBError Unit × List Event :=
  if db.opened = 0 then
    (Except.error DBError.dbClosed, [Event.rLock, Event.rUnlock])
  else
    let events := [Event.rLock, Event.native (NativeCall.merge key value), Event.rUnlock]
    match nativeErr with
    | some msg => (Except.error (DBError.engineError msg), events)
    | none => (Except.ok (), events)

/-- Put: calls the native put directly, with no lock and no open-flag
check. -/
def DB.Put (db : DB) (nativeErr : Option String) (key value : Bytes) :
    Except DBError Unit × List Event :=
  let events := [Event.native (NativeCall.put key value)]
  match nativeErr with
  | some msg => (Except.error (DBError.engineError msg), events)
  | none => (Except.ok (), events)

/-- Delete: calls the native delete directly, with no lock and no
open-flag check. -/
def DB.Delete (db : DB) (nativeErr : Option String) (key : Bytes) :
    Except DBError Unit × List Event :=
  let events := [Event.native (NativeCall.delete key)]
  match nativeErr with
  | some msg => (Except.error (DBError.engineError msg), events)
  | none => (Except.ok (), events)

/-- Write: submits a WriteBatch directly to the native engine, with no
lock and no open-flag check. -/
def DB.Write (db : DB) (nativeErr : Option String) (batch : Nat) :
    Except DBError Unit × List Event :=
  let events := [Event.native (NativeCall.write batch)]
  match nativeErr with
  | some msg => (Except.error (DBError.engineError msg), events)
  | none => (Except.ok (), events)

/-- Flush: shared lock, open-flag check, then the native flush. -/
def DB.Flush (db : DB) (nativeErr : Option String) :
    Except DBError Unit × List Event :=
  if db.opened = 0 then
    (Except.error DBError.dbClosed, [Event.rLock, Event.rUnlock])
  else
    let events := [Event.rLock, Event.native NativeCall.flush, Event.rUnlock]
    match nativeErr with
    | some msg => (Except.error (DBError.engineError msg), events)
    | none => (Except.ok (), events)

/-- DisableFileDeletions: shared lock, open-flag check, native call. -/
def DB.DisableFileDeletions (db : DB) (nativeErr : Option String) :
    Except DBError Unit × List Event :=
  if db.opened = 0 then
    (Except.error DBError.dbClosed, [Event.rLock, Event.rUnlock])
  else
    let events := [Event.rLock, Event.native NativeCall.disableFileDeletions, Event.rUnlock]
    match nativeErr with
    | some msg => (Except.error (DBError.engineError msg), events)
    | none => (Except.ok (), events)

/-- EnableFileDeletions: shared lock, open-flag check, native call. -/
def DB.EnableFileDeletions (db : DB) (nativeErr : Option String) (force : Bool) :
    Except DBError Unit × List Event :=
  if db.opened = 0 then
    (Except.error DBError.dbClosed, [Event.rLock, Event.rUnlock])
  else
    let events := [Event.rLock, Event.native (NativeCall.enableFileDeletions force), Event.rUnlock]
    match nativeErr with
    | some msg => (Except.error (DBError.engineError msg), events)
    | none => (Except.ok (), events)

/-- MultiGetBytes: per-key batch read.  The engine replies (one per key)
are the oracle; values and errs are the caller-provided output slices.
Returns none where the source hits an index-out-of-range runtime fault:
with an open engine and an empty key list it takes the address of the
first element of the empty cKeys slice, and writing output slot i needs
the output slices to hold at least keyList.length entries (for the errs
slice this model checks the bound up front, where the source would only
fault on the first per-key engine error).  Otherwise it returns the
updated values, the updated errs and the event trace.  The source
branches on opened == 1; the closed branch sets every value to nil and
every error to errDBClosed, frees each per-key scratch buffer, and
returns while still inside a single shared-lock critical section. -/
def DB.MultiGetBytes (db : DB) (native : List NativeGetReply) (keyList : List Bytes)
    (values : List (Option Bytes)) (errs : List (Option DBError)) :
    Option (List (Option Bytes) × List (Option DBError) × List Event) :=
  let n := keyList.length
  if db.opened = 1 then
    if n = 0 then
      none
    else if values.length < n ∨ errs.length < n then
      none
    else
      let reply := fun i => (native.get? i).getD ⟨none, none⟩
      let values2 := (List.range n).map (fun i =>
        match (reply i).cErr with
        | none => (reply i).value
        | some _ => none) ++ values.drop n
      let errs2 := (List.range n).map (fun i =>
        match (reply i).cErr with
        | none => (errs.get? i).getD none
        | some msg => some (DBError.engineError msg)) ++ errs.drop n
      let frees := ((List.range n).map (fun i =>
        (match (reply i).cErr with
         | none =>
           match (reply i).value with
           | none => []
           | some _ => [Event.freeValBuf i]
         | some _ => [Event.freeErrBuf i]) ++ [Event.freeKeyBuf i])).flatten
      some (values2, errs2,
        [Event.rLock, Event.native (NativeCall.multiGet keyList), Event.rUnlock] ++ frees)
  else if values.length < n ∨ errs.length < n then
    none
  else
    some (List.replicate n none ++ values.drop n,
          List.replicate n (some DBError.dbClosed) ++ errs.drop n,
          [Event.rLock] ++ (List.range n).map Event.freeKeyBuf ++ [Event.rUnlock])

/-- GetProperty: the source returns a bare string with no error channel;
on a closed engine it returns the empty string without any native
call. -/
def DB.GetProperty (db : DB) (native : String) (propName : String) :
    String × List Event :=
  if db.opened = 0 then
    ("", [Event.rLock, Event.rUnlock])
  else
    (native, [Event.rLock, Event.native (NativeCall.propertyValue propName), Event.rUnlock])

/-- Range of keys, half open; a missing bound is a nil Go slice. -/
structure Range where
  start : Option Bytes
  limit : Option Bytes
  deriving DecidableEq

/-- GetApproximateSizes: an empty range list short-circuits to an empty
sizes slice before the lock is taken; on a closed engine it returns nil
(none).  Otherwise the native size query runs (plus the memtable query
when includeMem), and the two per-range size vectors are summed. -/
def DB.GetApproximateSizes (db : DB) (nativeSizes nativeMemSizes : List Nat)
    (ranges : List Range) (includeMem : Bool) :
    Option (List Nat) × List Event :=
  if ranges.length = 0 then
    (some (List.replicate ranges.length 0), [])
  else if db.opened = 0 then
    (none, [Event.rLock, Event.rUnlock])
  else
    let n := ranges.length
    let sizes := (List.range n).map fun i => (nativeSizes.get? i).getD 0
    let memSizes := (List.range n).map fun i => (nativeMemSizes.get? i).getD 0
    let events := [Event.rLock, Event.native (NativeCall.approximateSizes n)]
      ++ (if includeMem then [Event.native (NativeCall.approximateMemtableSizes n)] else [])
      ++ [Event.rUnlock]
    (some (if includeMem then List.zipWith (· + ·) sizes memSizes else sizes), events)

/-- CompactRange: void return; on a closed engine it releases the shared
lock and silently returns without any native call. -/
def DB.CompactRange (db : DB) (r : Range) : List Event :=
  if db.opened = 0 then
    [Event.rLock, Event.rUnlock]
  else
    [Event.rLock, Event.native (NativeCall.compactRange r.start r.limit), Event.rUnlock]

/-- Shutdown: under the shared lock, a closed handle returns at once;
otherwise the native shutdown is signalled.  The handle state (open
flag, native handle) is left untouched on both paths. -/
def DB.Shutdown (db : DB) : DB × List Event :=
  if db.opened = 0 then
    (db, [Event.rLock, Event.rUnlock])
  else
    (db, [Event.rLock, Event.native NativeCall.shutdown, Event.rUnlock])

/-- Close: takes the exclusive lock, unconditionally calls the native
close (releasing the handle, and incrementing the release count), then
stores 0 into the open flag.  The source performs no open-flag check
here. -/
def DB.Close (db : DB) : DB × List Event :=
  (⟨0, db.closeCount + 1⟩, [Event.lock, Event.native NativeCall.close, Event.unlock])

/-- COWList.Append: copy the current backing list, append the item, and
return the new list together with the index of the item (length of the
new list minus one). -/
def COWList.Append {α : Type} (list : List α) (i : α) : List α × Nat :=
  let newLen := list.length + 1
  let newList := list ++ [i]
  (newList, newLen - 1)

/-- COWList.Get: read the item at index from the published snapshot; an
out-of-range index is a runtime fault in the source, hence Option. -/
def COWList.Get {α : Type} (list : List α) (index : Nat) : Option α :=
  list.get? index

/-- Run a sequence of Append calls, collecting the returned indices. -/
def COWList.appendAll {α : Type} (list : List α) : List α → List α × List Nat
  | [] => (list, [])
  | x :: xs =>
    let first := COWList.Append list x
    let rest := COWList.appendAll first.1 xs
    (rest.1, first.2 :: rest.2)

/-- Reply of a host compaction filter: the removal decision and an
optional replacement value (nil meaning keep the previous value). -/
structure FilterReply where
  remove : Bool
  newVal : Option Bytes
  deriving DecidableEq

/-- A registered compaction filter: its name and the host Filter
function taking level, key and existing value. -/
structure CompactionFilter where
  name : String
  filter : Int → Bytes → Bytes → FilterReply

/-- Output conventions of the dispatch shim toward the engine: the C int
return code, the optionally written replacement buffer with its length,
and the value-changed flag. -/
structure ShimOutput where
  retCode : Int
  cNewVal : Option Bytes
  cNewValLen : Option Nat
  cValChanged : Bool
  deriving DecidableEq

/-- The exported compaction-filter dispatch shim: look up the registered
filter by index in the registry snapshot, invoke it, and translate its
reply into the engine conventions (1 for removal with the replacement
outputs left unwritten; else 0, writing replacement bytes, length and
the changed flag only when a replacement value was supplied).  An
out-of-range index is a runtime fault in the source (none here). -/
def gorocksdb_compactionfilter_filter (filters : List CompactionFilter)
    (idx : Nat) (level : Int) (key val : Bytes) : Option ShimOutput :=
  match COWList.Get filters idx with
  | none => none
  | some w =>
    let r := w.filter level key val
    if r.remove then
      some ⟨1, none, none, false⟩
    else
      match r.newVal with
      | none => some ⟨0, none, none, false⟩
      | some nv => some ⟨0, some nv, some nv.length, true⟩

/-- Engine option handles are pass-throughs; only their count matters
for the column-family open entry points. -/
structure Options where
  c : Nat
  deriving DecidableEq

/-- Outcome of the column-family open entry points: the explicit
count-mismatch error, the index-out-of-range runtime fault hit on empty
lists, or reaching the native open call. -/
inductive OpenCFOutcome
  | mismatchError (msg : String)
  | indexPanic
  | nativeOpen (numColumnFamilies : Nat)
  deriving DecidableEq

/-- OpenDbColumnFamilies: rejects a name/option count mismatch with an
error; with zero column families the source takes the address of the
first element of the empty cNames slice, an index-out-of-range runtime
fault (indexPanic); otherwise it reaches the native open call with the
full column-family count. -/
def OpenDbColumnFamilies (cfNames : List String) (cfOpts : List Options) : OpenCFOutcome :=
  let numColumnFamilies := cfNames.length
  if numColumnFamilies ≠ cfOpts.length then
    OpenCFOutcome.mismatchError ("must provide the same number of column family names and options")
  else if numColumnFamilies = 0 then
    OpenCFOutcome.indexPanic
  else
    OpenCFOutcome.nativeOpen numColumnFamilies

/-- OpenDbForReadOnlyColumnFamilies: identical guard structure to
OpenDbColumnFamilies, with the extra errorIfLogFileExist flag passed
through to the native call. -/
def OpenDbForReadOnlyColumnFamilies (cfNames : List String) (cfOpts : List Options)
    (errorIfLogFileExist : Bool) : OpenCFOutcome :=
  let numColumnFamilies := cfNames.length
  if numColumnFamilies ≠ cfOpts.length then
    OpenCFOutcome.mismatchError ("must provide the same number of column family names and options")
  else if numColumnFamilies = 0 then
    OpenCFOutcome.indexPanic
  else
    OpenCFOutcome.nativeOpen numColumnFamilies

/-- A concrete host filter used to witness the shim translation: keep
the pair and replace the value by itself with a 0 byte appended. -/
def sampleFilter : CompactionFilter :=
  ⟨"f1", fun _ _ v => ⟨false, some (v ++ [0])⟩⟩

/-- Helper: the closed-branch MultiGet trace holds exactly one lock
acquisition. -/
theorem lockAcquisitions_closed_multiget_trace (l : List Nat) :
    lockAcquisitions ([Event.rLock] ++ l.map Event.freeKeyBuf ++ [Event.rUnlock]) = 1 := by
  induction l with
  | nil => rfl
  | cons x xs ih => simpa [lockAcquisitions, List.countP_append, List.countP_cons] using ih

/-- Helper: the closed-branch MultiGet trace holds no native call. -/
theorem nativeCalls_closed_multiget_trace (l : List Nat) :
    nativeCalls ([Event.rLock] ++ l.map Event.freeKeyBuf ++ [Event.rUnlock]) = [] := by
  induction l with
  | nil => rfl
  | cons x xs ih => simpa [nativeCalls, List.filterMap_cons] using ih

/-- Helper: the list produced by a run of Appends. -/
theorem COWList.appendAll_fst {α : Type} (xs : List α) : ∀ list : List α,
    (COWList.appendAll list xs).1 = list ++ xs := by
  induction xs with
  | nil => intro l; simp [COWList.appendAll]
  | cons x t ih =>
    intro l
    simp only [COWList.appendAll, COWList.Append]
    rw [ih (l ++ [x])]
    simp

/-- Helper: the indices handed out by a run of Appends are consecutive,
starting at the current length. -/
theorem COWList.appendAll_snd {α : Type} (xs : List α) : ∀ list : List α,
    (COWList.appendAll list xs).2 = List.range' list.length xs.length := by
  induction xs with
  | nil => intro l; simp [COWList.appendAll]
  | cons x t ih =>
    intro l
    simp only [COWList.appendAll, COWList.Append]
    rw [ih (l ++ [x])]
    have hr : List.range' l.length (t.length + 1)
        = l.length :: List.range' (l.length + 1) t.length := rfl
    simp only [List.length_cons]
    rw [hr]
    simp

/-- C1: with the open flag 0 each guard-gated operation (Get, GetBytes,
GetCF, Merge, Flush, DisableFileDeletions, EnableFileDeletions) returns
the typed closed error from inside a shared-lock critical section whose
trace contains no native engine call. -/
theorem guarded_ops_closed_return_errDBClosed (cc : Nat) (g : NativeGetReply) (cf : Nat)
    (e : Option String) (key value : Bytes) (force : Bool) :
    DB.Get ⟨0, cc⟩ g key = (Except.error DBError.dbClosed, [Event.rLock, Event.rUnlock]) ∧
    DB.GetBytes ⟨0, cc⟩ g key = (Except.error DBError.dbClosed, [Event.rLock, Event.rUnlock]) ∧
    DB.GetCF ⟨0, cc⟩ g cf key = (Except.error DBError.dbClosed, [Event.rLock, Event.rUnlock]) ∧
    DB.Merge ⟨0, cc⟩ e key value = (Except.error DBError.dbClosed, [Event.rLock, Event.rUnlock]) ∧
    DB.Flush ⟨0, cc⟩ e = (Except.error DBError.dbClosed, [Event.rLock, Event.rUnlock]) ∧
    DB.DisableFileDeletions ⟨0, cc⟩ e
      = (Except.error DBError.dbClosed, [Event.rLock, Event.rUnlock]) ∧
    DB.EnableFileDeletions ⟨0, cc⟩ e force
      = (Except.error DBError.dbClosed, [Event.rLock, Event.rUnlock]) ∧
    nativeCalls [Event.rLock, Event.rUnlock] = [] :=
  ⟨rfl, rfl, rfl, rfl, rfl, rfl, rfl, rfl⟩

/-- C2 counterexample: Merge on a closed handle returns the typed closed
error without any native call, so the write path is not uniformly
unguarded. -/
theorem merge_closed_returns_errDBClosed_cex :
    DB.Merge ⟨0, 0⟩ none [1] [2] = (Except.error DBError.dbClosed, [Event.rLock, Event.rUnlock]) ∧
    nativeCalls (DB.Merge ⟨0, 0⟩ none [1] [2]).2 = [] :=
  ⟨rfl, rfl⟩

/-- C2 amended: Put, Delete and batch Write call the native engine
directly for every input, never checking the open flag and never
returning the typed closed error; Merge, by contrast, is guard-gated and
returns the typed closed error on a closed handle. -/
theorem write_path_guard_asymmetry (db : DB) (e : Option String) (key value : Bytes)
    (batch cc : Nat) :
    (DB.Put db e key value).2 = [Event.native (NativeCall.put key value)] ∧
    (DB.Put db e key value).1 ≠ Except.error DBError.dbClosed ∧
    (DB.Delete db e key).2 = [Event.native (NativeCall.delete key)] ∧
    (DB.Delete db e key).1 ≠ Except.error DBError.dbClosed ∧
    (DB.Write db e batch).2 = [Event.native (NativeCall.write batch)] ∧
    (DB.Write db e batch).1 ≠ Except.error DBError.dbClosed ∧
    DB.Merge ⟨0, cc⟩ e key value
      = (Except.error DBError.dbClosed, [Event.rLock, Event.rUnlock]) := by
  refine ⟨?_, ?_, ?_, ?_, ?_, ?_, rfl⟩ <;> cases e <;> simp [DB.Put, DB.Delete, DB.Write]

/-- C3: every Append returns the index new-length-minus-one, the indices
handed out from a fresh registry are exactly 0..n-1 (strictly
increasing, never reused), the item appended at an index is readable
there, and Get at every previously returned index is unchanged by a
later Append. -/
theorem cowlist_append_get_spec {α : Type} (xs : List α) :
    (COWList.appendAll [] xs).1 = xs ∧
    (COWList.appendAll [] xs).2 = List.range xs.length ∧
    List.Pairwise (· < ·) (COWList.appendAll ([] : List α) xs).2 ∧
    List.Nodup (COWList.appendAll ([] : List α) xs).2 ∧
    ∀ (c : List α) (x : α),
      (COWList.Append c x).2 = (COWList.Append c x).1.length - 1 ∧
      (COWList.Append c x).2 = c.length ∧
      COWList.Get (COWList.Append c x).1 (COWList.Append c x).2 = some x ∧
      ∀ j, j < c.length → COWList.Get (COWList.Append c x).1 j = COWList.Get c j := by
  have h1 := COWList.appendAll_fst xs ([] : List α)
  rw [List.nil_append] at h1
  have hrange : (COWList.appendAll ([] : List α) xs).2 = List.range xs.length := by
    rw [COWList.appendAll_snd xs ([] : List α), List.range_eq_range']
    rfl
  refine ⟨h1, hrange, ?_, ?_, ?_⟩
  · rw [hrange]; exact List.pairwise_lt_range xs.length
  · rw [hrange]; exact List.nodup_range xs.length
  · intro c x
    refine ⟨?_, ?_, ?_, ?_⟩
    · simp [COWList.Append]
    · simp [COWList.Append]
    · simp only [COWList.Append, COWList.Get, Nat.add_sub_cancel]
      exact List.get?_concat_length c x
    · intro j hj
      simp only [COWList.Append, COWList.Get]
      exact List.get?_append hj

/-- Witness for C3 at a concrete registry. -/
theorem cowlist_append_get_spec_witness :
    (COWList.appendAll ([] : List Nat) [10, 20, 30]).2 = [0, 1, 2] ∧
    COWList.Get (COWList.Append [10] 20).1 0 = COWList.Get ([10] : List Nat) 0 := by
  have h := cowlist_append_get_spec [10, 20, 30]
  exact ⟨by rw [h.2.1]; rfl, (h.2.2.2.2 [10] 20).2.2.2 0 (by decide)⟩

/-- C4: the dispatch shim translates the host reply exactly: removal
returns 1 with no replacement outputs written; keep with no replacement
returns 0 with nothing written; keep with a replacement writes the
bytes, their length and the changed flag and returns 0. -/
theorem compactionfilter_shim_translation (filters : List CompactionFilter) (idx : Nat)
    (w : CompactionFilter) (h : COWList.Get filters idx = some w)
    (level : Int) (key val : Bytes) :
    ((w.filter level key val).remove = true →
      gorocksdb_compactionfilter_filter filters idx level key val
        = some ⟨1, none, none, false⟩) ∧
    ((w.filter level key val).remove = false → (w.filter level key val).newVal = none →
      gorocksdb_compactionfilter_filter filters idx level key val
        = some ⟨0, none, none, false⟩) ∧
    (∀ nv, (w.filter level key val).remove = false →
      (w.filter level key val).newVal = some nv →
      gorocksdb_compactionfilter_filter filters idx level key val
        = some ⟨0, some nv, some nv.length, true⟩) := by
  refine ⟨?_, ?_, ?_⟩
  · intro hr; simp [gorocksdb_compactionfilter_filter, h, hr]
  · intro hr hn; simp [gorocksdb_compactionfilter_filter, h, hr, hn]
  · intro nv hr hn; simp [gorocksdb_compactionfilter_filter, h, hr, hn]

/-- Witness for C4: the sample filter keeps the pair and supplies a
replacement, and the shim writes the replacement bytes, their length and
the changed flag. -/
theorem compactionfilter_shim_translation_witness :
    gorocksdb_compactionfilter_filter [sampleFilter] 0 0 [1] [2]
      = some ⟨0, some [2, 0], some 2, true⟩ :=
  (compactionfilter_shim_translation [sampleFilter] 0 sampleFilter rfl 0 [1] [2]).2.2
    [2, 0] rfl rfl

/-- C5: MultiGetBytes on a closed handle (open flag 0) with a non-empty
key list sets every output value to nil and every output error to the
typed closed error, frees each per-key scratch buffer, makes no native
call, and does it all under a single shared-lock acquisition. -/
theorem multiget_closed_uniform_failure (cc : Nat) (native : List NativeGetReply)
    (k : Bytes) (ks : List Bytes) (values : List (Option Bytes)) (errs : List (Option DBError))
    (hv : (k :: ks).length ≤ values.length) (he : (k :: ks).length ≤ errs.length) :
    DB.MultiGetBytes ⟨0, cc⟩ native (k :: ks) values errs =
      some (List.replicate (k :: ks).length none ++ values.drop (k :: ks).length,
            List.replicate (k :: ks).length (some DBError.dbClosed) ++ errs.drop (k :: ks).length,
            [Event.rLock] ++ (List.range (k :: ks).length).map Event.freeKeyBuf
              ++ [Event.rUnlock]) ∧
    lockAcquisitions
      ([Event.rLock] ++ (List.range (k :: ks).length).map Event.freeKeyBuf
        ++ [Event.rUnlock]) = 1 ∧
    nativeCalls
      ([Event.rLock] ++ (List.range (k :: ks).length).map Event.freeKeyBuf
        ++ [Event.rUnlock]) = [] := by
  have hcond : ¬ (values.length < (k :: ks).length ∨ errs.length < (k :: ks).length) := by
    push_neg
    exact ⟨hv, he⟩
  refine ⟨?_, lockAcquisitions_closed_multiget_trace (List.range (k :: ks).length),
    nativeCalls_closed_multiget_trace (List.range (k :: ks).length)⟩
  simp only [DB.MultiGetBytes]
  rw [if_neg (show ¬ ((⟨0, cc⟩ : DB).opened = 1) by simp)]
  rw [if_neg hcond]

/-- Witness for C5 on a concrete one-key batch against a closed
handle. -/
theorem multiget_closed_uniform_failure_witness :
    DB.MultiGetBytes ⟨0, 0⟩ [] [[1]] [some [9]] [none] =
      some ([none], [some DBError.dbClosed],
        [Event.rLock, Event.freeKeyBuf 0, Event.rUnlock]) := by
  have h := multiget_closed_uniform_failure 0 [] [1] [] [some [9]] [none]
    (by decide) (by decide)
  simpa using h.1

/-- C6: the code evaluated on a double Close: the second Close invokes
the native close again (release count 2, a double free) instead of being
a no-op; the open flag stays 0. -/
theorem close_twice_double_free :
    DB.Close (DB.Close ⟨1, 0⟩).1 =
      (⟨0, 2⟩, [Event.lock, Event.native NativeCall.close, Event.unlock]) ∧
    nativeCalls (DB.Close (DB.Close ⟨1, 0⟩).1).2 = [NativeCall.close] :=
  ⟨rfl, rfl⟩

/-- C7: the code evaluated at the failing input: MultiGetBytes with an
open handle and an empty key list hits the index-out-of-range fault
(none) taking the address of the first element of the empty cKeys
slice, rather than returning an empty result. -/
theorem multiget_empty_open_faults :
    DB.MultiGetBytes ⟨1, 0⟩ [] [] [] [] = none := rfl

/-- C8: Shutdown leaves the handle state unchanged (open flag and
release count intact) and never issues the native close; on an open
handle it signals the native shutdown, on a closed one it does nothing;
Close is the operation that stores 0 into the open flag and releases the
native handle. -/
theorem shutdown_frame_close_transition (db : DB) (cc : Nat) :
    (DB.Shutdown db).1 = db ∧
    (DB.Shutdown ⟨1, cc⟩).2 = [Event.rLock, Event.native NativeCall.shutdown, Event.rUnlock] ∧
    (DB.Shutdown ⟨0, cc⟩).2 = [Event.rLock, Event.rUnlock] ∧
    nativeCalls (DB.Shutdown ⟨0, cc⟩).2 = [] ∧
    NativeCall.close ∉ nativeCalls (DB.Shutdown db).2 ∧
    (DB.Close db).1.opened = 0 ∧
    (DB.Close db).1.closeCount = db.closeCount + 1 ∧
    (DB.Close db).2 = [Event.lock, Event.native NativeCall.close, Event.unlock] := by
  refine ⟨?_, rfl, rfl, rfl, ?_, rfl, rfl, rfl⟩
  · by_cases h : db.opened = 0 <;> simp [DB.Shutdown, h]
  · by_cases h : db.opened = 0 <;> simp [DB.Shutdown, h, nativeCalls]

/-- C9 counterexample: on a closed handle GetProperty silently returns
the empty string with no native call and no error channel, so its
result is indistinguishable from an open engine reporting an empty
property; GetApproximateSizes silently returns nil and CompactRange
silently does nothing. -/
theorem getproperty_closed_silent_default_cex :
    DB.GetProperty ⟨0, 0⟩ ("anything") ("rocksdb.stats")
      = ("", [Event.rLock, Event.rUnlock]) ∧
    (DB.GetProperty ⟨0, 0⟩ ("anything") ("rocksdb.stats")).1
      = (DB.GetProperty ⟨1, 0⟩ ("") ("rocksdb.stats")).1 ∧
    (DB.GetApproximateSizes ⟨0, 0⟩ [7] [] [⟨some [1], some [2]⟩] false).1 = none ∧
    DB.CompactRange ⟨0, 0⟩ ⟨none, none⟩ = [Event.rLock, Event.rUnlock] :=
  ⟨rfl, rfl, rfl, rfl⟩

/-- C9 amended: operations with an error return channel surface the
typed closed error on a closed handle, while GetProperty,
GetApproximateSizes and CompactRange have no failure channel and
silently return a default (empty string, nil, no-op) when closed,
without any native call. -/
theorem error_channel_partition (cc : Nat) (g : NativeGetReply) (e : Option String)
    (key : Bytes) (v p : String) (r : Range) (rs : List Range) (b : Bool)
    (szs mems : List Nat) :
    DB.Get ⟨0, cc⟩ g key = (Except.error DBError.dbClosed, [Event.rLock, Event.rUnlock]) ∧
    DB.Flush ⟨0, cc⟩ e = (Except.error DBError.dbClosed, [Event.rLock, Event.rUnlock]) ∧
    DB.GetProperty ⟨0, cc⟩ v p = ("", [Event.rLock, Event.rUnlock]) ∧
    DB.GetApproximateSizes ⟨0, cc⟩ szs mems (r :: rs) b = (none, [Event.rLock, Event.rUnlock]) ∧
    DB.CompactRange ⟨0, cc⟩ r = [Event.rLock, Event.rUnlock] ∧
    nativeCalls [Event.rLock, Event.rUnlock] = [] := by
  refine ⟨rfl, rfl, rfl, ?_, rfl, rfl⟩
  simp [DB.GetApproximateSizes]

/-- C10: the column-family open entry points return the mismatch error
when the counts differ, fault with an index-out-of-range on the empty
lists (address of the first element of an empty array), and reach the
native open only when at least one column family is supplied. -/
theorem open_column_families_guard (cfNames : List String) (cfOpts : List Options) (b : Bool) :
    (cfNames.length ≠ cfOpts.length →
      OpenDbColumnFamilies cfNames cfOpts =
        OpenCFOutcome.mismatchError
          ("must provide the same number of column family names and options") ∧
      OpenDbForReadOnlyColumnFamilies cfNames cfOpts b =
        OpenCFOutcome.mismatchError
          ("must provide the same number of column family names and options")) ∧
    OpenDbColumnFamilies [] [] = OpenCFOutcome.indexPanic ∧
    OpenDbForReadOnlyColumnFamilies [] [] b = OpenCFOutcome.indexPanic ∧
    (cfNames.length = cfOpts.length → 0 < cfNames.length →
      OpenDbColumnFamilies cfNames cfOpts = OpenCFOutcome.nativeOpen cfNames.length ∧
      OpenDbForReadOnlyColumnFamilies cfNames cfOpts b
        = OpenCFOutcome.nativeOpen cfNames.length) := by
  refine ⟨?_, rfl, rfl, ?_⟩
  · intro h
    constructor <;> simp [OpenDbColumnFamilies, OpenDbForReadOnlyColumnFamilies, h]
  · intro h hpos
    have hne : ¬ cfNames.length = 0 := by omega
    have hne2 : ¬ cfOpts = [] := by
      intro hnil
      subst hnil
      simp at h
      subst h
      simp at hpos
    constructor <;>
      simp [OpenDbColumnFamilies, OpenDbForReadOnlyColumnFamilies, h, hne, hne2]

/-- Witness for C10 on concrete inputs exercising the mismatch branch
and the successful branch. -/
theorem open_column_families_guard_witness :
    OpenDbColumnFamilies [("default")] [⟨0⟩] = OpenCFOutcome.nativeOpen 1 ∧
    OpenDbColumnFamilies [("a")] [] =
      OpenCFOutcome.mismatchError
        ("must provide the same number of column family names and options") := by
  refine ⟨?_, ?_⟩
  · exact ((open_column_families_guard [("default")] [⟨0⟩] true).2.2.2 rfl (by decide)).1
  · exact ((open_column_families_guard [("a")] [] true).1 (by decide)).1

end Gorocksdb
